import Mathlib

/-!
Verification of the `ddb` DynamoDB wrapper package (aws-code-snippets).

The Go source is shallowly embedded: the opaque AWS client is modelled by
explicit server behaviour (a list of page responses consumed in order by the
cursor loops, or a request-to-response function for single-shot calls), Go
slices become `List`, nilable maps become `Option`, Go `int` becomes `Int`,
and a Go slice expression `xs[:l]` with an out-of-range bound is modelled as
`none` (a runtime panic).  Loop functions additionally record the sequence of
`ExclusiveStartKey` values assigned to the (pointer-shared) request on each
iteration, which is the in-place mutation the caller observes.
-/

namespace Ddb

/-- The `types.Select` enumeration of the SDK (`Select` is a string type; the
zero value `""` is modelled as `unset`). -/
inductive Select where
  | unset
  | allAttributes
  | allProjectedAttributes
  | specificAttributes
  | count
  deriving DecidableEq

/-- The fields of a `dynamodb.QueryOutput` / `ScanOutput` that the package
reads: `Items`, `LastEvaluatedKey` (nil = no continuation cursor) and
`Count`. -/
structure DbOutput (I K : Type) where
  items : List I
  lastEvaluatedKey : Option K
  count : Int
  deriving DecidableEq

/-- The fields of a `dynamodb.ScanInput` the package touches:
`ExclusiveStartKey`, plus all remaining fields kept opaque in `other`. -/
structure ScanInputGo (K F : Type) where
  exclusiveStartKey : Option K
  other : F
  deriving DecidableEq

/-- The fields of a `dynamodb.QueryInput` the package touches:
`ExclusiveStartKey` and `Select`, plus all remaining fields opaque in
`other`. -/
structure QueryInputGo (K F : Type) where
  exclusiveStartKey : Option K
  select : Select
  other : F
  deriving DecidableEq

/-- `PaginationOps` of the source: an embedded `QueryInput` plus `Skip` and
`Limit` (Go `int`, modelled as `Int`). -/
structure PaginationOps (K F : Type) where
  queryInput : QueryInputGo K F
  skip : Int
  limit : Int
  deriving DecidableEq

/-- `PaginatedResults` of the source. -/
structure PaginatedResults (I : Type) where
  items : List I
  skip : Int
  limit : Int
  count : Int
  deriving DecidableEq

/-- Outcome of one of the goroutine loop bodies: normal return with the
accumulated items, error return, or a runtime panic (out-of-range slice
index). -/
inductive LoopRes (I E : Type) where
  | ok (items : List I)
  | fail (e : E)
  | panicked
  deriving DecidableEq

/-- Result of a cursor loop together with the mutation it performed on the
shared request: `finalESK` is the last value assigned to
`ExclusiveStartKey`, `sent` lists the `ExclusiveStartKey` value of every
request issued, in order. -/
structure LoopOut (I K E : Type) where
  res : LoopRes I E
  finalESK : Option K
  sent : List (Option K)
  deriving DecidableEq

/-- Go slice expression `xs[:l]`: defined (as a prefix) when
`0 ≤ l ≤ len xs`, a runtime panic (`none`) otherwise. -/
def goSliceTake {I : Type} (xs : List I) (l : Int) : Option (List I) :=
  if 0 ≤ l ∧ l ≤ (xs.length : Int) then some (xs.take l.toNat) else none

/-- The common cursor loop of `ScanAll` (source lines 106-117) and
`QueryAll` (lines 215-226), whose bodies are textually identical: assign
`input.ExclusiveStartKey := lastEvaluatedKey` (initially nil), issue the
request, fail on error, append the page's items, stop when the response has
no `LastEvaluatedKey`, otherwise continue with the new cursor.  The server
is modelled by the list of responses it returns to the successive requests;
`none` means the run consumed more responses than the model supplies. -/
def fetchAllAux {I K E : Type} :
    List (Except E (DbOutput I K)) → List I → Option K → Option (LoopOut I K E)
  | [], _, _ => none
  | .error e :: _, _, lek => some ⟨.fail e, lek, [lek]⟩
  | .ok page :: rest, acc, lek =>
    let acc2 := acc ++ page.items
    match page.lastEvaluatedKey with
    | none => some ⟨.ok acc2, lek, [lek]⟩
    | some k =>
      match fetchAllAux rest acc2 (some k) with
      | none => none
      | some o => some ⟨o.res, o.finalESK, lek :: o.sent⟩

/-- `ScanAll`: runs the cursor loop on the caller's `ScanInput` (held by
pointer, so the loop's `ExclusiveStartKey` assignments mutate it).  Returns
the loop outcome, the caller's input as it stands after the call, and the
requests issued. -/
def ScanAll {I K E F : Type} (inp : ScanInputGo K F)
    (resps : List (Except E (DbOutput I K))) :
    Option (LoopRes I E × ScanInputGo K F × List (ScanInputGo K F)) :=
  (fetchAllAux resps [] none).map fun o =>
    (o.res, ⟨o.finalESK, inp.other⟩, o.sent.map fun c => ⟨c, inp.other⟩)

/-- `QueryAll`: identical loop to `ScanAll`, over a `QueryInput`. -/
def QueryAll {I K E F : Type} (inp : QueryInputGo K F)
    (resps : List (Except E (DbOutput I K))) :
    Option (LoopRes I E × QueryInputGo K F × List (QueryInputGo K F)) :=
  (fetchAllAux resps [] none).map fun o =>
    (o.res, ⟨o.finalESK, inp.select, inp.other⟩,
      o.sent.map fun c => ⟨c, inp.select, inp.other⟩)

/-- The fetch goroutine's loop in `QueryWithPagination` (source lines
136-159): assign `input.ExclusiveStartKey := lastEvaluatedKey` (initially
nil), query, fail on error, compute the per-page take length
`l := if len(page)+len(acc) > Limit then Limit-len(acc) else len(page)`,
append `page[:l]` (a panic when `l` is negative, which happens exactly when
`Limit < len(acc)`, e.g. a negative `Limit`), and stop when the response has
no cursor or the accumulation reached `Limit`. -/
def fetchAux {I K E : Type} (limit : Int) :
    List (Except E (DbOutput I K)) → List I → Option K → Option (LoopOut I K E)
  | [], _, _ => none
  | .error e :: _, _, lek => some ⟨.fail e, lek, [lek]⟩
  | .ok page :: rest, acc, lek =>
    let l : Int :=
      if (page.items.length : Int) + (acc.length : Int) > limit
      then limit - (acc.length : Int)
      else (page.items.length : Int)
    match goSliceTake page.items l with
    | none => some ⟨.panicked, lek, [lek]⟩
    | some taken =>
      let acc2 := acc ++ taken
      match page.lastEvaluatedKey with
      | none => some ⟨.ok acc2, lek, [lek]⟩
      | some k =>
        if (acc2.length : Int) ≥ limit then some ⟨.ok acc2, lek, [lek]⟩
        else
          match fetchAux limit rest acc2 (some k) with
          | none => none
          | some o => some ⟨o.res, o.finalESK, lek :: o.sent⟩

/-- The skip step after the fetch loop (source lines 161-165): if
`Skip >= len(items)` the slice is emptied (`slices.Delete`), otherwise the
result is `items[Skip:]` — a panic when `Skip` is negative. -/
def skipGo {I : Type} (skip : Int) (items : List I) : Option (List I) :=
  if skip ≥ (items.length : Int) then some []
  else if 0 ≤ skip then some (items.drop skip.toNat)
  else none

/-- The whole fetch goroutine of `QueryWithPagination`: the limited cursor
loop followed by the skip step. -/
def fetchTask {I K E : Type} (skip limit : Int)
    (resps : List (Except E (DbOutput I K))) : Option (LoopOut I K E) :=
  match fetchAux limit resps [] none with
  | none => none
  | some o =>
    match o.res with
    | .ok items =>
      match skipGo skip items with
      | none => some ⟨.panicked, o.finalESK, o.sent⟩
      | some items2 => some ⟨.ok items2, o.finalESK, o.sent⟩
    | r => some ⟨r, o.finalESK, o.sent⟩

/-- A task failure of `QueryWithPagination` after its `fmt.Errorf` wrapping:
`query e` is "error querying dynamo: e", `count e` is
"error getting query count: e". -/
inductive TaskErr (E : Type) where
  | query (e : E)
  | count (e : E)
  deriving DecidableEq

/-- `QueryWithPagination` (source lines 124-207): the fetch goroutine and
the count goroutine run and each sends its error slot on `errChan`; the
caller joins both, fails with the joined non-nil errors if there are any,
and otherwise builds the `PaginatedResults`.  The count goroutine's
`GetQueryCount` outcome is modelled by `countResp`; the joined error list is
given here in fetch-then-count order (the real channel order depends on the
scheduler, which only permutes the list).  `none` models a run with no
defined result: the server model was exhausted, or a goroutine panicked
(which crashes the program). -/
def QueryWithPagination {I K E F : Type} (ops : PaginationOps K F)
    (resps : List (Except E (DbOutput I K))) (countResp : Except E Int) :
    Option (Except (List (TaskErr E)) (PaginatedResults I)) :=
  match fetchTask ops.skip ops.limit resps with
  | none => none
  | some o =>
    match o.res, countResp with
    | .panicked, _ => none
    | .fail e, .error e2 => some (.error [.query e, .count e2])
    | .fail e, .ok _ => some (.error [.query e])
    | .ok _, .error e2 => some (.error [.count e2])
    | .ok items, .ok c => some (.ok ⟨items, ops.skip, ops.limit, c⟩)

/-- The caller's `PaginationOps` as it stands after `QueryWithPagination`
returns: the fetch loop assigned `input.ExclusiveStartKey` on every
iteration through the shared pointer, and no other field was written. -/
def qwpFinalOps {I K E F : Type} (ops : PaginationOps K F)
    (resps : List (Except E (DbOutput I K))) : Option (PaginationOps K F) :=
  (fetchAux ops.limit resps ([] : List I) none).map fun o =>
    ⟨⟨o.finalESK, ops.queryInput.select, ops.queryInput.other⟩, ops.skip, ops.limit⟩

/-- The value of the shared `input.QueryInput` as the count goroutine can
observe it when it evaluates `input.QueryInput` (source line 173) after the
fetch goroutine has performed its first `j` assignments to
`input.ExclusiveStartKey` (an unsynchronized interleaving point `j`; the
writes are the `sent` trace of the fetch loop). -/
def countSnapshot {K F : Type} (inp : QueryInputGo K F)
    (writes : List (Option K)) (j : Nat) : QueryInputGo K F :=
  match (writes.take j).getLast? with
  | none => inp
  | some w => ⟨w, inp.select, inp.other⟩

/-- An error of the `ddb` package: the sentinel `ErrNotFound` or an error
value coming from the underlying client (kept distinct, exactly as
`errors.Is` distinguishes them). -/
inductive DbErr (E : Type) where
  | notFound
  | client (e : E)
  deriving DecidableEq

/-- The fields of a `dynamodb.GetItemInput` that `UpdateIfExistsOrFail`
builds: `TableName` and `Key`. -/
structure GetItemInputGo (T Kv : Type) where
  tableName : T
  key : Kv
  deriving DecidableEq

/-- The fields of a `dynamodb.UpdateItemInput` the package reads:
`TableName` and `Key`, plus the remaining fields opaque in `rest`. -/
structure UpdateItemInputGo (T Kv R : Type) where
  tableName : T
  key : Kv
  rest : R
  deriving DecidableEq

/-- `GetOne` (source lines 87-99): forwards to the client's `GetItem`
(modelled by `getItem`; the response's possibly-nil `Item` field is an
`Option`), propagates a client failure, turns a nil item into
`ErrNotFound`, and returns the item unchanged otherwise. -/
def GetOne {T Kv I E : Type} (getItem : GetItemInputGo T Kv → Except E (Option I))
    (inp : GetItemInputGo T Kv) : Except (DbErr E) (Option I) :=
  match getItem inp with
  | .error e => .error (.client e)
  | .ok none => .error .notFound
  | .ok (some it) => .ok (some it)

/-- One client call made by `UpdateIfExistsOrFail`. -/
inductive CallEv (T Kv R : Type) where
  | get (g : GetItemInputGo T Kv)
  | upd (u : UpdateItemInputGo T Kv R)
  deriving DecidableEq

/-- `UpdateIfExistsOrFail` (source lines 63-84): first `GetOne` on a
`GetItemInput` built from the update's `TableName` and `Key`; on
`ErrNotFound` return `ErrNotFound` without updating, on any other error
return it without updating; otherwise `UpdateItem` and return its outcome.
The second component records the client calls performed, in order. -/
def UpdateIfExistsOrFail {T Kv R I E U : Type}
    (getItem : GetItemInputGo T Kv → Except E (Option I))
    (updateItem : UpdateItemInputGo T Kv R → Except E U)
    (input : UpdateItemInputGo T Kv R) :
    Except (DbErr E) Unit × List (CallEv T Kv R) :=
  let gi : GetItemInputGo T Kv := ⟨input.tableName, input.key⟩
  match GetOne getItem gi with
  | .error .notFound => (.error .notFound, [.get gi])
  | .error e => (.error e, [.get gi])
  | .ok _ =>
    match updateItem input with
    | .error e => (.error (.client e), [.get gi, .upd input])
    | .ok _ => (.ok (), [.get gi, .upd input])

/-- `GetQueryCount` (source lines 232-243): the request is received by
value; its local copy's `Select` is forced to `COUNT` if it differs, one
query is issued with it, and the response's `Count` is returned.  The
second component lists the requests issued (exactly one). -/
def GetQueryCount {I K E F : Type} (inp : QueryInputGo K F)
    (server : QueryInputGo K F → Except E (DbOutput I K)) :
    Except E Int × List (QueryInputGo K F) :=
  let inp2 := if inp.select = Select.count then inp else ⟨inp.exclusiveStartKey, Select.count, inp.other⟩
  (match server inp2 with
   | .error e => .error e
   | .ok out => .ok out.count,
   [inp2])

/-- A well-formed server page chain: at least one page, every page but the
last carries a continuation cursor, the last does not. -/
def isChain {I K : Type} : List (DbOutput I K) → Bool
  | [] => false
  | [p] => p.lastEvaluatedKey.isNone
  | p :: rest => p.lastEvaluatedKey.isSome && isChain rest

/-- The cursor assigned on the last executed iteration of a loop that
consumed exactly the given pages and stopped at the last one. -/
def chainFinal {I K : Type} (lek : Option K) : List (DbOutput I K) → Option K
  | [] => lek
  | [_] => lek
  | p :: rest => chainFinal p.lastEvaluatedKey rest

/-- The cursor assigned on the failing iteration of a loop that consumed
the given pages and then received an error. -/
def chainFailFinal {I K : Type} (lek : Option K) : List (DbOutput I K) → Option K
  | [] => lek
  | p :: rest => chainFailFinal p.lastEvaluatedKey rest

theorem fetchAux_bound {I K E : Type} (limit : Int)
    (resps : List (Except E (DbOutput I K))) :
    ∀ (acc : List I) (lek : Option K), (acc.length : Int) ≤ limit →
      ∀ o, fetchAux limit resps acc lek = some o →
        o.res ≠ LoopRes.panicked ∧
        ∀ items, o.res = LoopRes.ok items → (items.length : Int) ≤ limit := by
  induction resps with
  | nil => intro acc lek hacc o h; simp [fetchAux] at h
  | cons r rest ih =>
    intro acc lek hacc o h
    cases r with
    | error e =>
      simp only [fetchAux] at h
      rcases Option.some.inj h with rfl
      exact ⟨by simp, by simp⟩
    | ok page =>
      simp only [fetchAux] at h
      by_cases hgt : (page.items.length : Int) + (acc.length : Int) > limit
      · rw [if_pos hgt] at h
        have hc : 0 ≤ limit - (acc.length : Int) ∧
            limit - (acc.length : Int) ≤ (page.items.length : Int) := by omega
        rw [goSliceTake, if_pos hc] at h
        have hacc2 :
            ((acc ++ page.items.take (limit - (acc.length : Int)).toNat).length : Int) ≤ limit := by
          push_cast [List.length_append, List.length_take]
          omega
        cases hlek : page.lastEvaluatedKey with
        | none =>
          rw [hlek] at h
          rcases Option.some.inj h with rfl
          refine ⟨by simp, ?_⟩
          intro items hit
          rcases LoopRes.ok.inj hit with rfl
          exact hacc2
        | some k =>
          rw [hlek] at h
          dsimp only at h
          by_cases hge : ((acc ++ page.items.take (limit - (acc.length : Int)).toNat).length : Int) ≥ limit
          · rw [if_pos hge] at h
            rcases Option.some.inj h with rfl
            refine ⟨by simp, ?_⟩
            intro items hit
            rcases LoopRes.ok.inj hit with rfl
            exact hacc2
          · rw [if_neg hge] at h
            cases hrec : fetchAux limit rest (acc ++ page.items.take (limit - (acc.length : Int)).toNat) (some k) with
            | none => rw [hrec] at h; cases h
            | some o2 =>
              rw [hrec] at h
              rcases Option.some.inj h with rfl
              have := ih _ (some k) hacc2 o2 hrec
              exact ⟨this.1, this.2⟩
      · rw [if_neg hgt] at h
        have hc : 0 ≤ (page.items.length : Int) ∧
            (page.items.length : Int) ≤ (page.items.length : Int) := by omega
        rw [goSliceTake, if_pos hc] at h
        have hacc2 :
            ((acc ++ page.items.take (page.items.length : Int).toNat).length : Int) ≤ limit := by
          push_cast [List.length_append, List.length_take]
          omega
        cases hlek : page.lastEvaluatedKey with
        | none =>
          rw [hlek] at h
          rcases Option.some.inj h with rfl
          refine ⟨by simp, ?_⟩
          intro items hit
          rcases LoopRes.ok.inj hit with rfl
          exact hacc2
        | some k =>
          rw [hlek] at h
          dsimp only at h
          by_cases hge : ((acc ++ page.items.take (page.items.length : Int).toNat).length : Int) ≥ limit
          · rw [if_pos hge] at h
            rcases Option.some.inj h with rfl
            refine ⟨by simp, ?_⟩
            intro items hit
            rcases LoopRes.ok.inj hit with rfl
            exact hacc2
          · rw [if_neg hge] at h
            cases hrec : fetchAux limit rest (acc ++ page.items.take (page.items.length : Int).toNat) (some k) with
            | none => rw [hrec] at h; cases h
            | some o2 =>
              rw [hrec] at h
              rcases Option.some.inj h with rfl
              have := ih _ (some k) hacc2 o2 hrec
              exact ⟨this.1, this.2⟩



theorem skipGo_bound {I : Type} (s : Int) (hs : 0 ≤ s) (items : List I) :
    ∃ r, skipGo s items = some r ∧ (r.length : Int) ≤ max ((items.length : Int) - s) 0 := by
  rw [skipGo]
  by_cases h1 : s ≥ (items.length : Int)
  · exact ⟨[], by rw [if_pos h1], by simp⟩
  · rw [if_neg h1, if_pos hs]
    refine ⟨items.drop s.toNat, rfl, ?_⟩
    rw [List.length_drop]
    have h2 : ((items.length - s.toNat : Nat) : Int) ≤ (items.length : Int) - s := by omega
    exact le_trans h2 (le_max_left _ _)

theorem fetchAux_sent {I K E : Type} (limit : Int) (resps : List (Except E (DbOutput I K))) :
    ∀ (acc : List I) (lek : Option K) o, fetchAux limit resps acc lek = some o →
      o.sent.head? = some lek ∧ o.sent.getLast? = some o.finalESK := by
  induction resps with
  | nil => intro acc lek o h; simp [fetchAux] at h
  | cons r rest ih =>
    intro acc lek o h
    cases r with
    | error e =>
      simp only [fetchAux] at h
      rcases Option.some.inj h with rfl
      exact ⟨rfl, rfl⟩
    | ok page =>
      simp only [fetchAux] at h
      split at h
      · rcases Option.some.inj h with rfl; exact ⟨rfl, rfl⟩
      · split at h
        · rcases Option.some.inj h with rfl; exact ⟨rfl, rfl⟩
        · split at h
          · rcases Option.some.inj h with rfl; exact ⟨rfl, rfl⟩
          · split at h
            · cases h
            · rename_i o2 hrec
              rcases Option.some.inj h with rfl
              obtain ⟨h1, h2⟩ := ih _ _ o2 hrec
              refine ⟨rfl, ?_⟩
              cases hs : o2.sent with
              | nil => rw [hs] at h2; cases h2
              | cons a t =>
                rw [hs] at h2
                rw [List.getLast?_cons_cons]
                exact h2

theorem fetchAllAux_sent {I K E : Type} (resps : List (Except E (DbOutput I K))) :
    ∀ (acc : List I) (lek : Option K) o, fetchAllAux resps acc lek = some o →
      o.sent.head? = some lek ∧ o.sent.getLast? = some o.finalESK := by
  induction resps with
  | nil => intro acc lek o h; simp [fetchAllAux] at h
  | cons r rest ih =>
    intro acc lek o h
    cases r with
    | error e =>
      simp only [fetchAllAux] at h
      rcases Option.some.inj h with rfl
      exact ⟨rfl, rfl⟩
    | ok page =>
      simp only [fetchAllAux] at h
      split at h
      · rcases Option.some.inj h with rfl; exact ⟨rfl, rfl⟩
      · split at h
        · cases h
        · rename_i o2 hrec
          rcases Option.some.inj h with rfl
          obtain ⟨h1, h2⟩ := ih _ _ o2 hrec
          refine ⟨rfl, ?_⟩
          cases hs : o2.sent with
          | nil => rw [hs] at h2; cases h2
          | cons a t =>
            rw [hs] at h2
            rw [List.getLast?_cons_cons]
            exact h2

theorem fetchAllAux_chain {I K : Type} (E : Type) :
    ∀ (pages : List (DbOutput I K)) (acc : List I) (lek : Option K),
      isChain pages = true →
      fetchAllAux (pages.map Except.ok : List (Except E (DbOutput I K))) acc lek =
        some ⟨LoopRes.ok (acc ++ (pages.map DbOutput.items).flatten), chainFinal lek pages,
          lek :: pages.dropLast.map DbOutput.lastEvaluatedKey⟩ := by
  intro pages
  induction pages with
  | nil => intro acc lek h; simp [isChain] at h
  | cons p ps ih =>
    intro acc lek h
    cases ps with
    | nil =>
      rw [isChain] at h
      rw [Option.isNone_iff_eq_none] at h
      simp only [List.map, fetchAllAux, h]
      simp [chainFinal]
    | cons q qs =>
      simp only [isChain, Bool.and_eq_true] at h
      rcases h with ⟨h1, h2⟩
      rcases Option.isSome_iff_exists.mp h1 with ⟨k, hk⟩
      have step : fetchAllAux ((p :: q :: qs).map Except.ok : List (Except E (DbOutput I K))) acc lek =
          match fetchAllAux ((q :: qs).map Except.ok : List (Except E (DbOutput I K))) (acc ++ p.items) (some k) with
          | none => none
          | some o => some ⟨o.res, o.finalESK, lek :: o.sent⟩ := by
        simp only [List.map_cons, fetchAllAux, hk]
      rw [step, ih _ (some k) h2]
      have hfin : chainFinal lek (p :: q :: qs) = chainFinal (some k) (q :: qs) := by
        simp only [chainFinal]
        rw [hk]
      have hdl : (p :: q :: qs).dropLast.map DbOutput.lastEvaluatedKey =
          some k :: (q :: qs).dropLast.map DbOutput.lastEvaluatedKey := by
        rw [List.dropLast_cons₂, List.map_cons, hk]
      rw [hfin, hdl]
      simp [List.append_assoc]


theorem fetchTask_bound {I K E : Type} (s l : Int) (hs : 0 ≤ s) (hl : 0 ≤ l)
    (resps : List (Except E (DbOutput I K))) :
    ∀ o, fetchTask s l resps = some o →
      o.res ≠ LoopRes.panicked ∧
      ∀ items, o.res = LoopRes.ok items → (items.length : Int) ≤ max (l - s) 0 := by
  intro o h
  rw [fetchTask] at h
  cases haux : fetchAux l resps [] none with
  | none => rw [haux] at h; cases h
  | some o0 =>
    rw [haux] at h
    dsimp only at h
    obtain ⟨hnp, hbound⟩ := fetchAux_bound l resps [] none (by simpa) o0 haux
    cases hres : o0.res with
    | ok items =>
      rw [hres] at h
      dsimp only at h
      have hlen := hbound items hres
      obtain ⟨r2, hskip, hrlen⟩ := skipGo_bound s hs items
      rw [hskip] at h
      rcases Option.some.inj h with rfl
      refine ⟨by simp, ?_⟩
      intro items2 hit
      rcases LoopRes.ok.inj hit with rfl
      have hmono : max ((items.length : Int) - s) 0 ≤ max (l - s) 0 :=
        max_le_max (by omega) (le_refl 0)
      exact le_trans hrlen hmono
    | fail e =>
      rw [hres] at h
      dsimp only at h
      rcases Option.some.inj h with rfl
      exact ⟨by simp, by intro items hit; cases hit⟩
    | panicked => exact absurd hres hnp

/-- C1: for every `PaginationOps` with `Skip = s ≥ 0` and `Limit = l ≥ 0`
and every sequence of server pages, the fetch goroutine of
`QueryWithPagination` never panics (the truncation index stays in range),
and the `Items` list of a successful result has length at most
`max (l - s) 0`. -/
theorem queryWithPagination_items_length_bound {I K E F : Type}
    (s l : Int) (hs : 0 ≤ s) (hl : 0 ≤ l)
    (resps : List (Except E (DbOutput I K))) :
    (∀ o, fetchTask s l resps = some o → o.res ≠ LoopRes.panicked) ∧
    (∀ (qi : QueryInputGo K F) (cr : Except E Int) (r : PaginatedResults I),
      QueryWithPagination ⟨qi, s, l⟩ resps cr = some (Except.ok r) →
      (r.items.length : Int) ≤ max (l - s) 0) := by
  constructor
  · intro o h
    exact (fetchTask_bound s l hs hl resps o h).1
  · intro qi cr r h
    rw [QueryWithPagination] at h
    dsimp only at h
    cases hft : fetchTask s l resps with
    | none => rw [hft] at h; cases h
    | some o =>
      rw [hft] at h
      dsimp only at h
      obtain ⟨hnp, hbound⟩ := fetchTask_bound s l hs hl resps o hft
      cases hres : o.res with
      | ok items =>
        rw [hres] at h
        cases cr with
        | error e2 => dsimp only at h; cases Option.some.inj h
        | ok c =>
          dsimp only at h
          rcases Option.some.inj h with h2
          rcases Except.ok.inj h2 with rfl
          exact hbound items hres
      | fail e =>
        rw [hres] at h
        cases cr <;> dsimp only at h <;> cases Option.some.inj h
      | panicked => exact absurd hres hnp

/-- Witness for C1 at a concrete input: `Skip = 1`, `Limit = 4`, pages of
sizes 2 and 4; the theorem's hypotheses hold and the bound is attained. -/
theorem queryWithPagination_items_length_bound_witness :
    QueryWithPagination (⟨⟨none, Select.unset, ()⟩, 1, 4⟩ : PaginationOps Nat Unit)
      [Except.ok ⟨[1, 2], some 1, 0⟩,
       (Except.ok ⟨[3, 4, 5, 6], none, 0⟩ : Except Nat (DbOutput Nat Nat))]
      (Except.ok 9) = some (Except.ok ⟨[2, 3, 4], 1, 4, 9⟩) ∧
    (((⟨[2, 3, 4], 1, 4, 9⟩ : PaginatedResults Nat).items.length : Int) ≤ max (4 - 1) 0) := by
  refine ⟨by rfl, ?_⟩
  exact (queryWithPagination_items_length_bound 1 4 (by norm_num) (by norm_num)
      [Except.ok ⟨[1, 2], some 1, 0⟩,
       (Except.ok ⟨[3, 4, 5, 6], none, 0⟩ : Except Nat (DbOutput Nat Nat))]).2
    ⟨none, Select.unset, ()⟩ (Except.ok 9) ⟨[2, 3, 4], 1, 4, 9⟩ (by rfl)

/-- C3 is violated by the code on its own scenario: over the pages of sizes
3 and 7 with `Skip = 2`, `Limit = 5` the fetch goroutine does compute the
items `[3, 4, 5]` exactly as claimed (first conjunct, which also exhibits
its write trace `[nil, cursor 1]` on the shared request), and if the count
goroutine snapshots `input.QueryInput` before any of those writes its query
reports the full total 10 and the call returns `Count = 10` (second and
fourth conjuncts).  But under the unsynchronized interleaving in which the
count goroutine reads the shared request after the fetch loop's second
`ExclusiveStartKey` write, its query carries the mid-chain cursor and the
same server reports only the 7 matches from that cursor on, so the call
returns the claimed items with `Count = 7 ≠ 10` (third, fifth and sixth
conjuncts). -/
theorem queryWithPagination_scenario_count_race :
    fetchTask 2 5
      ([Except.ok ⟨[1, 2, 3], some 1, 0⟩, Except.ok ⟨[4, 5, 6, 7, 8, 9, 10], none, 0⟩] :
        List (Except Nat (DbOutput Nat Nat))) =
      some ⟨LoopRes.ok [3, 4, 5], some 1, [none, some 1]⟩ ∧
    (GetQueryCount
      (countSnapshot (⟨none, Select.unset, ()⟩ : QueryInputGo Nat Unit) [none, some 1] 0)
      (fun q => if q.exclusiveStartKey = some 1 then Except.ok ⟨[], none, 7⟩
                else Except.ok ⟨[], none, 10⟩ :
        QueryInputGo Nat Unit → Except Nat (DbOutput Nat Nat))).1 = Except.ok 10 ∧
    (GetQueryCount
      (countSnapshot (⟨none, Select.unset, ()⟩ : QueryInputGo Nat Unit) [none, some 1] 2)
      (fun q => if q.exclusiveStartKey = some 1 then Except.ok ⟨[], none, 7⟩
                else Except.ok ⟨[], none, 10⟩ :
        QueryInputGo Nat Unit → Except Nat (DbOutput Nat Nat))).1 = Except.ok 7 ∧
    QueryWithPagination (⟨⟨none, Select.unset, ()⟩, 2, 5⟩ : PaginationOps Nat Unit)
      [Except.ok ⟨[1, 2, 3], some 1, 0⟩,
       (Except.ok ⟨[4, 5, 6, 7, 8, 9, 10], none, 0⟩ : Except Nat (DbOutput Nat Nat))]
      (Except.ok 10) = some (Except.ok ⟨[3, 4, 5], 2, 5, 10⟩) ∧
    QueryWithPagination (⟨⟨none, Select.unset, ()⟩, 2, 5⟩ : PaginationOps Nat Unit)
      [Except.ok ⟨[1, 2, 3], some 1, 0⟩,
       (Except.ok ⟨[4, 5, 6, 7, 8, 9, 10], none, 0⟩ : Except Nat (DbOutput Nat Nat))]
      (Except.ok 7) = some (Except.ok ⟨[3, 4, 5], 2, 5, 7⟩) ∧
    (⟨[3, 4, 5], 2, 5, 7⟩ : PaginatedResults Nat).count ≠ 10 := by
  refine ⟨rfl, rfl, rfl, rfl, rfl, by decide⟩

/-- Counterexample to C4 as stated: with `Limit = -1` the first page's
truncation length is `-1 - 0 < 0`, so `output.Items[:l]` panics instead of
truncating to an empty slice; the call has no defined result. -/
theorem queryWithPagination_negative_limit_panics :
    fetchAux (-1) [(Except.ok ⟨[1], none, 0⟩ : Except Nat (DbOutput Nat Nat))] [] none =
      some ⟨LoopRes.panicked, none, [none]⟩ ∧
    QueryWithPagination (⟨⟨none, Select.unset, ()⟩, 0, -1⟩ : PaginationOps Nat Unit)
      [(Except.ok ⟨[1], none, 0⟩ : Except Nat (DbOutput Nat Nat))] (Except.ok 1) = none := by
  exact ⟨rfl, rfl⟩

/-- C4 (amended): for `Limit = 0` (and non-negative `Skip`) the fetch loop
truncates the first page to an empty slice without failing, stops after
exactly one query (the `sent` trace is `[none]`), and the count task still
executes: its result supplies `Count`. -/
theorem queryWithPagination_zero_limit {I K E F : Type} (s : Int) (hs : 0 ≤ s)
    (qi : QueryInputGo K F) (page : DbOutput I K)
    (rest : List (Except E (DbOutput I K))) (c : Int) :
    fetchTask s 0 (Except.ok page :: rest) = some ⟨LoopRes.ok [], none, [none]⟩ ∧
    QueryWithPagination ⟨qi, s, 0⟩ (Except.ok page :: rest) (Except.ok c) =
      some (Except.ok ⟨[], s, 0, c⟩) := by
  have haux : fetchAux (0 : Int) (Except.ok page :: rest) ([] : List I) (none : Option K) =
      some ⟨LoopRes.ok [], none, [none]⟩ := by
    cases hpi : page.items with
    | nil =>
      cases hlek : page.lastEvaluatedKey <;>
        simp [fetchAux, goSliceTake, hpi, hlek]
    | cons a t =>
      have hpos : (0 : Int) ≤ (t.length : Int) + 1 := by positivity
      cases hlek : page.lastEvaluatedKey <;>
        simp [fetchAux, goSliceTake, hpi, hlek, hpos]
  have hft : fetchTask s (0 : Int) (Except.ok page :: rest) =
      some ⟨LoopRes.ok [], none, [none]⟩ := by
    rw [fetchTask, haux]
    dsimp only
    rw [skipGo, if_pos (by simpa using hs)]
  refine ⟨hft, ?_⟩
  rw [QueryWithPagination]
  dsimp only
  rw [hft]

/-- Witness for the amended C4 at a concrete input. -/
theorem queryWithPagination_zero_limit_witness :
    QueryWithPagination (⟨⟨none, Select.unset, ()⟩, 0, 0⟩ : PaginationOps Nat Unit)
      [(Except.ok ⟨[1, 2], some 1, 0⟩ : Except Nat (DbOutput Nat Nat))] (Except.ok 7) =
      some (Except.ok ⟨[], 0, 0, 7⟩) :=
  (queryWithPagination_zero_limit 0 (by norm_num) ⟨none, Select.unset, ()⟩
    ⟨[1, 2], some 1, 0⟩ [] 7).2

/-- C2 is violated by the code: the fetch goroutine writes
`input.ExclusiveStartKey` (first `nil`, then each page cursor — the `sent`
trace below) while the count goroutine reads the shared `input.QueryInput`
unsynchronized, so the request the count task copies can differ from the
caller's original (here: after both writes it carries the mid-chain cursor
`some 1`), and the count computed from it (7, the matches from that cursor
on) differs from the full-set total (10). -/
theorem queryWithPagination_count_task_race :
    fetchAux 100
      ([Except.ok ⟨[1, 2, 3], some 1, 0⟩, Except.ok ⟨[4, 5, 6, 7, 8, 9, 10], none, 0⟩] :
        List (Except Nat (DbOutput Nat Nat))) [] none =
      some ⟨LoopRes.ok [1, 2, 3, 4, 5, 6, 7, 8, 9, 10], some 1, [none, some 1]⟩ ∧
    countSnapshot (⟨none, Select.allAttributes, ()⟩ : QueryInputGo Nat Unit)
      [none, some 1] 2 ≠ (⟨none, Select.allAttributes, ()⟩ : QueryInputGo Nat Unit) ∧
    (GetQueryCount
      (countSnapshot (⟨none, Select.allAttributes, ()⟩ : QueryInputGo Nat Unit) [none, some 1] 2)
      (fun q => if q.exclusiveStartKey = some 1 then Except.ok ⟨[], none, 7⟩
                else Except.ok ⟨[], none, 10⟩ :
        QueryInputGo Nat Unit → Except Nat (DbOutput Nat Nat))).1 = Except.ok 7 ∧
    (GetQueryCount (⟨none, Select.allAttributes, ()⟩ : QueryInputGo Nat Unit)
      (fun q => if q.exclusiveStartKey = some 1 then Except.ok ⟨[], none, 7⟩
                else Except.ok ⟨[], none, 10⟩ :
        QueryInputGo Nat Unit → Except Nat (DbOutput Nat Nat))).1 = Except.ok 10 := by
  refine ⟨rfl, by decide, rfl, rfl⟩

/-- C5: `QueryWithPagination` fails exactly when at least one task fails;
with both failing the single joined error carries both task failures (each
task ran to completion: both slots are present); on any failure no
`PaginatedResults` is produced, and with both tasks succeeding the result
is built from the fetch items and the count. -/
theorem queryWithPagination_error_join {I K E F : Type} (ops : PaginationOps K F)
    (resps : List (Except E (DbOutput I K))) (countResp : Except E Int)
    (o : LoopOut I K E) (h : fetchTask ops.skip ops.limit resps = some o) :
    (∀ e, o.res = LoopRes.fail e → ∀ e2, countResp = Except.error e2 →
      QueryWithPagination ops resps countResp =
        some (Except.error [TaskErr.query e, TaskErr.count e2])) ∧
    (∀ e, o.res = LoopRes.fail e → ∀ c, countResp = Except.ok c →
      QueryWithPagination ops resps countResp = some (Except.error [TaskErr.query e])) ∧
    (∀ items, o.res = LoopRes.ok items → ∀ e2, countResp = Except.error e2 →
      QueryWithPagination ops resps countResp = some (Except.error [TaskErr.count e2])) ∧
    (∀ items, o.res = LoopRes.ok items → ∀ c, countResp = Except.ok c →
      QueryWithPagination ops resps countResp =
        some (Except.ok ⟨items, ops.skip, ops.limit, c⟩)) := by
  refine ⟨?_, ?_, ?_, ?_⟩ <;>
    · intro x hx y hy
      rw [QueryWithPagination, h]
      dsimp only
      rw [hx, hy]

/-- Witness for C5: a both-tasks-fail run returning the joined pair, and a
count-only failure returning just the count error. -/
theorem queryWithPagination_error_join_witness :
    QueryWithPagination (⟨⟨none, Select.unset, ()⟩, 0, 5⟩ : PaginationOps Nat Unit)
      [(Except.error 9 : Except Nat (DbOutput Nat Nat))] (Except.error 3) =
      some (Except.error [TaskErr.query 9, TaskErr.count 3]) ∧
    QueryWithPagination (⟨⟨none, Select.unset, ()⟩, 0, 5⟩ : PaginationOps Nat Unit)
      [(Except.ok ⟨[1, 2], none, 0⟩ : Except Nat (DbOutput Nat Nat))] (Except.error 3) =
      some (Except.error [TaskErr.count 3]) := by
  constructor
  · exact (queryWithPagination_error_join (⟨⟨none, Select.unset, ()⟩, 0, 5⟩ : PaginationOps Nat Unit)
      [(Except.error 9 : Except Nat (DbOutput Nat Nat))] (Except.error 3)
      ⟨LoopRes.fail 9, none, [none]⟩ rfl).1 9 rfl 3 rfl
  · exact (queryWithPagination_error_join (⟨⟨none, Select.unset, ()⟩, 0, 5⟩ : PaginationOps Nat Unit)
      [(Except.ok ⟨[1, 2], none, 0⟩ : Except Nat (DbOutput Nat Nat))] (Except.error 3)
      ⟨LoopRes.ok [1, 2], none, [none]⟩ rfl).2.2.1 [1, 2] rfl 3 rfl


/-- C6: `GetOne` returns `ErrNotFound` exactly when the client call
succeeds with no item; it never succeeds with a nil item; a present item is
returned unchanged; any other client failure propagates unchanged. -/
theorem getOne_notFound_characterisation {T Kv I E : Type}
    (getItem : GetItemInputGo T Kv → Except E (Option I)) (inp : GetItemInputGo T Kv) :
    (GetOne getItem inp = Except.error DbErr.notFound ↔ getItem inp = Except.ok none) ∧
    (GetOne getItem inp ≠ Except.ok none) ∧
    (∀ x, GetOne getItem inp = Except.ok (some x) ↔ getItem inp = Except.ok (some x)) ∧
    (∀ e, GetOne getItem inp = Except.error (DbErr.client e) ↔ getItem inp = Except.error e) := by
  cases hg : getItem inp with
  | error e => simp [GetOne, hg]
  | ok it =>
    cases it with
    | none => simp [GetOne, hg]
    | some x => simp [GetOne, hg]

/-- Witness for C6: a nil-item response maps to `ErrNotFound`, a present
item is returned unchanged. -/
theorem getOne_notFound_characterisation_witness :
    GetOne (fun _ => Except.ok none : GetItemInputGo Nat Nat → Except Nat (Option Nat))
      ⟨0, 0⟩ = Except.error DbErr.notFound ∧
    GetOne (fun _ => Except.ok (some 5) : GetItemInputGo Nat Nat → Except Nat (Option Nat))
      ⟨0, 0⟩ = Except.ok (some 5) := by
  constructor
  · exact (getOne_notFound_characterisation
      (fun _ => Except.ok none : GetItemInputGo Nat Nat → Except Nat (Option Nat))
      ⟨0, 0⟩).1.mpr rfl
  · exact ((getOne_notFound_characterisation
      (fun _ => Except.ok (some 5) : GetItemInputGo Nat Nat → Except Nat (Option Nat))
      ⟨0, 0⟩).2.2.1 5).mpr rfl

/-- C7: `UpdateIfExistsOrFail` first performs `GetOne` on a `GetItemInput`
built from the update request's table and key; a nil-item check yields
`ErrNotFound` with no update call, any other check failure propagates with
no update call, and only a successful check leads to the update call, whose
outcome is returned. -/
theorem updateIfExistsOrFail_spec {T Kv R I E U : Type}
    (getItem : GetItemInputGo T Kv → Except E (Option I))
    (updateItem : UpdateItemInputGo T Kv R → Except E U)
    (input : UpdateItemInputGo T Kv R) :
    (getItem ⟨input.tableName, input.key⟩ = Except.ok none →
      UpdateIfExistsOrFail getItem updateItem input =
        (Except.error DbErr.notFound, [CallEv.get ⟨input.tableName, input.key⟩])) ∧
    (∀ e, getItem ⟨input.tableName, input.key⟩ = Except.error e →
      UpdateIfExistsOrFail getItem updateItem input =
        (Except.error (DbErr.client e), [CallEv.get ⟨input.tableName, input.key⟩])) ∧
    (∀ x, getItem ⟨input.tableName, input.key⟩ = Except.ok (some x) →
      ∀ u, updateItem input = Except.ok u →
        UpdateIfExistsOrFail getItem updateItem input =
          (Except.ok (), [CallEv.get ⟨input.tableName, input.key⟩, CallEv.upd input])) ∧
    (∀ x, getItem ⟨input.tableName, input.key⟩ = Except.ok (some x) →
      ∀ e, updateItem input = Except.error e →
        UpdateIfExistsOrFail getItem updateItem input =
          (Except.error (DbErr.client e),
            [CallEv.get ⟨input.tableName, input.key⟩, CallEv.upd input])) := by
  refine ⟨?_, ?_, ?_, ?_⟩
  · intro hg
    rw [UpdateIfExistsOrFail]
    simp [GetOne, hg]
  · intro e hg
    rw [UpdateIfExistsOrFail]
    simp [GetOne, hg]
  · intro x hg u hu
    rw [UpdateIfExistsOrFail]
    simp [GetOne, hg, hu]
  · intro x hg e hu
    rw [UpdateIfExistsOrFail]
    simp [GetOne, hg, hu]

/-- Witness for C7: a nil-item check returns `ErrNotFound` with only the
get call performed, and an existing item leads to get-then-update. -/
theorem updateIfExistsOrFail_spec_witness :
    UpdateIfExistsOrFail
      (fun _ => Except.ok none : GetItemInputGo Nat Nat → Except Nat (Option Nat))
      (fun _ => Except.ok () : UpdateItemInputGo Nat Nat Unit → Except Nat Unit)
      ⟨1, 2, ()⟩ = (Except.error DbErr.notFound, [CallEv.get ⟨1, 2⟩]) ∧
    UpdateIfExistsOrFail
      (fun _ => Except.ok (some 5) : GetItemInputGo Nat Nat → Except Nat (Option Nat))
      (fun _ => Except.ok () : UpdateItemInputGo Nat Nat Unit → Except Nat Unit)
      ⟨1, 2, ()⟩ = (Except.ok (), [CallEv.get ⟨1, 2⟩, CallEv.upd ⟨1, 2, ()⟩]) := by
  constructor
  · exact (updateIfExistsOrFail_spec
      (fun _ => Except.ok none : GetItemInputGo Nat Nat → Except Nat (Option Nat))
      (fun _ => Except.ok () : UpdateItemInputGo Nat Nat Unit → Except Nat Unit)
      ⟨1, 2, ()⟩).1 rfl
  · exact (updateIfExistsOrFail_spec
      (fun _ => Except.ok (some 5) : GetItemInputGo Nat Nat → Except Nat (Option Nat))
      (fun _ => Except.ok () : UpdateItemInputGo Nat Nat Unit → Except Nat Unit)
      ⟨1, 2, ()⟩).2.2.1 5 rfl () rfl


theorem fetchAllAux_fail {I K E : Type} :
    ∀ (pages : List (DbOutput I K)) (e : E) (tail : List (Except E (DbOutput I K)))
      (acc : List I) (lek : Option K),
      (∀ p ∈ pages, p.lastEvaluatedKey.isSome = true) →
      fetchAllAux (pages.map Except.ok ++ Except.error e :: tail) acc lek =
        some ⟨LoopRes.fail e, chainFailFinal lek pages,
          lek :: pages.map DbOutput.lastEvaluatedKey⟩ := by
  intro pages
  induction pages with
  | nil =>
    intro e tail acc lek hp
    simp [fetchAllAux, chainFailFinal]
  | cons p ps ih =>
    intro e tail acc lek hp
    rcases Option.isSome_iff_exists.mp (hp p (List.mem_cons_self p ps)) with ⟨k, hk⟩
    have step : fetchAllAux ((p :: ps).map Except.ok ++ Except.error e :: tail) acc lek =
        match fetchAllAux (ps.map Except.ok ++ Except.error e :: tail) (acc ++ p.items) (some k) with
        | none => none
        | some o => some ⟨o.res, o.finalESK, lek :: o.sent⟩ := by
      simp only [List.map_cons, List.cons_append, fetchAllAux, hk]
      rfl
    rw [step, ih e tail _ (some k) fun q hq => hp q (List.mem_cons_of_mem p hq)]
    have hfin : chainFailFinal lek (p :: ps) = chainFailFinal (some k) ps := by
      rw [chainFailFinal, hk]
    rw [hfin]
    simp [hk]

theorem getQueryCount_sent {I K E F : Type} (inp : QueryInputGo K F)
    (server : QueryInputGo K F → Except E (DbOutput I K)) :
    (GetQueryCount inp server).2 = [⟨inp.exclusiveStartKey, Select.count, inp.other⟩] := by
  obtain ⟨esk, sel, oth⟩ := inp
  rw [GetQueryCount]
  dsimp only
  by_cases hs : sel = Select.count
  · rw [if_pos hs, hs]
  · rw [if_neg hs]

/-- C8: `ScanAll` and `QueryAll` over a full cursor chain return exactly
the concatenation of the pages' items in page order, and the requests they
issue carry `ExclusiveStartKey = nil` first and then each previous page's
`LastEvaluatedKey`; a page-fetch failure anywhere in the chain makes the
whole call fail with that error and no item list. -/
theorem scanAll_queryAll_concat {I K E Fs Fq : Type} (sInp : ScanInputGo K Fs)
    (qInp : QueryInputGo K Fq) (pages failPages : List (DbOutput I K))
    (hchain : isChain pages = true)
    (hfail : ∀ p ∈ failPages, p.lastEvaluatedKey.isSome = true)
    (e : E) (rest : List (Except E (DbOutput I K))) :
    (∃ fin sent,
      ScanAll sInp (pages.map Except.ok : List (Except E (DbOutput I K))) =
        some (LoopRes.ok ((pages.map DbOutput.items).flatten), fin, sent) ∧
      sent.map ScanInputGo.exclusiveStartKey =
        none :: pages.dropLast.map DbOutput.lastEvaluatedKey) ∧
    (∃ fin sent,
      QueryAll qInp (pages.map Except.ok : List (Except E (DbOutput I K))) =
        some (LoopRes.ok ((pages.map DbOutput.items).flatten), fin, sent) ∧
      sent.map QueryInputGo.exclusiveStartKey =
        none :: pages.dropLast.map DbOutput.lastEvaluatedKey) ∧
    (∃ fin sent, ScanAll sInp (failPages.map Except.ok ++ Except.error e :: rest) =
      some (LoopRes.fail e, fin, sent)) ∧
    (∃ fin sent, QueryAll qInp (failPages.map Except.ok ++ Except.error e :: rest) =
      some (LoopRes.fail e, fin, sent)) := by
  have hch := fetchAllAux_chain E pages ([] : List I) (none : Option K) hchain
  have hfl := fetchAllAux_fail failPages e rest ([] : List I) (none : Option K) hfail
  refine ⟨⟨⟨chainFinal none pages, sInp.other⟩,
      (none :: pages.dropLast.map DbOutput.lastEvaluatedKey).map
        (fun c => (⟨c, sInp.other⟩ : ScanInputGo K Fs)), ?_, ?_⟩,
    ⟨⟨chainFinal none pages, qInp.select, qInp.other⟩,
      (none :: pages.dropLast.map DbOutput.lastEvaluatedKey).map
        (fun c => (⟨c, qInp.select, qInp.other⟩ : QueryInputGo K Fq)), ?_⟩,
    ⟨⟨chainFailFinal none failPages, sInp.other⟩,
      (none :: failPages.map DbOutput.lastEvaluatedKey).map
        (fun c => (⟨c, sInp.other⟩ : ScanInputGo K Fs)), ?_⟩,
    ⟨⟨chainFailFinal none failPages, qInp.select, qInp.other⟩,
      (none :: failPages.map DbOutput.lastEvaluatedKey).map
        (fun c => (⟨c, qInp.select, qInp.other⟩ : QueryInputGo K Fq)), ?_⟩⟩
  · rw [ScanAll, hch]
    rfl
  · simp only [List.map_map, List.map_cons]
    rfl
  · refine ⟨?_, ?_⟩
    · rw [QueryAll, hch]
      rfl
    · simp only [List.map_map, List.map_cons]
      rfl
  · rw [ScanAll, hfl]
    rfl
  · rw [QueryAll, hfl]
    rfl

/-- Witness for C8: a two-page chain concatenates to `[1, 2, 3]` with the
cursor-chained requests, and an error after one page fails the call. -/
theorem scanAll_queryAll_concat_witness :
    (∃ fin sent, ScanAll (⟨none, ()⟩ : ScanInputGo Nat Unit)
        [(Except.ok ⟨[1, 2], some 9, 0⟩ : Except Nat (DbOutput Nat Nat)),
         Except.ok ⟨[3], none, 0⟩] =
        some (LoopRes.ok [1, 2, 3], fin, sent) ∧
      sent.map ScanInputGo.exclusiveStartKey = [none, some 9]) ∧
    (∃ fin sent, QueryAll (⟨none, Select.unset, ()⟩ : QueryInputGo Nat Unit)
        [(Except.ok ⟨[1], some 4, 0⟩ : Except Nat (DbOutput Nat Nat)), Except.error 5] =
        some (LoopRes.fail 5, fin, sent)) := by
  have h := scanAll_queryAll_concat (⟨none, ()⟩ : ScanInputGo Nat Unit)
    (⟨none, Select.unset, ()⟩ : QueryInputGo Nat Unit)
    [⟨[1, 2], some 9, 0⟩, ⟨[3], none, 0⟩] [⟨[1], some 4, 0⟩] (by rfl)
    (by decide) (5 : Nat) []
  exact ⟨h.1, h.2.2.2⟩

/-- C9: `GetQueryCount` issues exactly one query whose `Select` is forced
to count-only whatever the caller supplied, and returns the server-reported
`Count` of that single response — whatever item list the response carries. -/
theorem getQueryCount_forces_count_select {I K E F : Type} (inp : QueryInputGo K F)
    (server : QueryInputGo K F → Except E (DbOutput I K)) :
    (GetQueryCount inp server).2 = [⟨inp.exclusiveStartKey, Select.count, inp.other⟩] ∧
    (∀ out, server ⟨inp.exclusiveStartKey, Select.count, inp.other⟩ = Except.ok out →
      (GetQueryCount inp server).1 = Except.ok out.count) ∧
    (∀ e2, server ⟨inp.exclusiveStartKey, Select.count, inp.other⟩ = Except.error e2 →
      (GetQueryCount inp server).1 = Except.error e2) := by
  obtain ⟨esk, sel, oth⟩ := inp
  have hif : (if (⟨esk, sel, oth⟩ : QueryInputGo K F).select = Select.count
      then (⟨esk, sel, oth⟩ : QueryInputGo K F) else ⟨esk, Select.count, oth⟩) =
      (⟨esk, Select.count, oth⟩ : QueryInputGo K F) := by
    dsimp only
    by_cases hs : sel = Select.count
    · rw [if_pos hs, hs]
    · rw [if_neg hs]
  refine ⟨?_, ?_, ?_⟩
  · exact getQueryCount_sent ⟨esk, sel, oth⟩ server
  · intro out hout
    rw [GetQueryCount]
    dsimp only
    rw [hif]
    dsimp only at hout
    rw [hout]
  · intro e2 he2
    rw [GetQueryCount]
    dsimp only
    rw [hif]
    dsimp only at he2
    rw [he2]

/-- Witness for C9: a caller-supplied `ALL_ATTRIBUTES` mode is overridden,
one request is sent, and the response's `Count` (42) is returned even
though the modelled response also carries items. -/
theorem getQueryCount_forces_count_select_witness :
    (GetQueryCount (⟨some 3, Select.allAttributes, ()⟩ : QueryInputGo Nat Unit)
      (fun _ => Except.ok ⟨[8, 8], none, 42⟩ :
        QueryInputGo Nat Unit → Except Nat (DbOutput Nat Nat))).2 =
      [⟨some 3, Select.count, ()⟩] ∧
    (GetQueryCount (⟨some 3, Select.allAttributes, ()⟩ : QueryInputGo Nat Unit)
      (fun _ => Except.ok ⟨[8, 8], none, 42⟩ :
        QueryInputGo Nat Unit → Except Nat (DbOutput Nat Nat))).1 = Except.ok 42 := by
  have h := getQueryCount_forces_count_select
    (⟨some 3, Select.allAttributes, ()⟩ : QueryInputGo Nat Unit)
    (fun _ => Except.ok ⟨[8, 8], none, 42⟩ :
      QueryInputGo Nat Unit → Except Nat (DbOutput Nat Nat))
  exact ⟨h.1, h.2.1 ⟨[8, 8], none, 42⟩ rfl⟩

/-- C10: the cursor loops overwrite the caller's request's
`ExclusiveStartKey` on every iteration — the result is independent of the
`ExclusiveStartKey` the caller passed, the first issued request carries
`nil`, the final state of the caller's request equals the last issued
request, and every other field is unchanged; `GetQueryCount`, by contrast,
receives its request by value (the model returns no mutated caller
request) and its single sent request differs from the caller's only in
`Select`. -/
theorem request_mutation_frame {I K E Fs Fq : Type} (sInp : ScanInputGo K Fs)
    (qInp : QueryInputGo K Fq) (ops : PaginationOps K Fq) (inp : QueryInputGo K Fq)
    (server : QueryInputGo K Fq → Except E (DbOutput I K))
    (resps : List (Except E (DbOutput I K))) :
    (∀ x, ScanAll ⟨x, sInp.other⟩ resps =
      (ScanAll sInp resps : Option (LoopRes I E × ScanInputGo K Fs × List (ScanInputGo K Fs)))) ∧
    (∀ t : LoopRes I E × ScanInputGo K Fs × List (ScanInputGo K Fs),
      ScanAll sInp resps = some t →
        t.2.1.other = sInp.other ∧ t.2.2.head? = some ⟨none, sInp.other⟩ ∧
        t.2.2.getLast? = some t.2.1) ∧
    (∀ x, QueryAll ⟨x, qInp.select, qInp.other⟩ resps =
      (QueryAll qInp resps : Option (LoopRes I E × QueryInputGo K Fq × List (QueryInputGo K Fq)))) ∧
    (∀ t : LoopRes I E × QueryInputGo K Fq × List (QueryInputGo K Fq),
      QueryAll qInp resps = some t →
        t.2.1.select = qInp.select ∧ t.2.1.other = qInp.other ∧
        t.2.2.head? = some ⟨none, qInp.select, qInp.other⟩ ∧ t.2.2.getLast? = some t.2.1) ∧
    (∀ x, qwpFinalOps (⟨⟨x, ops.queryInput.select, ops.queryInput.other⟩, ops.skip, ops.limit⟩ :
        PaginationOps K Fq) resps = qwpFinalOps ops resps) ∧
    (∀ finOps, qwpFinalOps ops resps = some finOps →
      finOps.queryInput.select = ops.queryInput.select ∧
      finOps.queryInput.other = ops.queryInput.other ∧
      finOps.skip = ops.skip ∧ finOps.limit = ops.limit) ∧
    (∀ o, fetchAux ops.limit resps ([] : List I) none = some o →
      o.sent.head? = some none ∧ o.sent.getLast? = some o.finalESK) ∧
    (GetQueryCount inp server).2 = [⟨inp.exclusiveStartKey, Select.count, inp.other⟩] := by
  refine ⟨?_, ?_, ?_, ?_, ?_, ?_, ?_, ?_⟩
  · intro x
    rfl
  · intro t h
    rw [ScanAll] at h
    cases haux : fetchAllAux resps ([] : List I) (none : Option K) with
    | none => rw [haux] at h; cases h
    | some o =>
      rw [haux] at h
      dsimp only [Option.map] at h
      rcases Option.some.inj h with rfl
      obtain ⟨hh, hl⟩ := fetchAllAux_sent resps ([] : List I) (none : Option K) o haux
      refine ⟨rfl, ?_, ?_⟩
      · dsimp only
        rw [List.head?_map, hh]
        rfl
      · dsimp only
        rw [List.getLast?_map, hl]
        rfl
  · intro x
    rfl
  · intro t h
    rw [QueryAll] at h
    cases haux : fetchAllAux resps ([] : List I) (none : Option K) with
    | none => rw [haux] at h; cases h
    | some o =>
      rw [haux] at h
      dsimp only [Option.map] at h
      rcases Option.some.inj h with rfl
      obtain ⟨hh, hl⟩ := fetchAllAux_sent resps ([] : List I) (none : Option K) o haux
      refine ⟨rfl, rfl, ?_, ?_⟩
      · dsimp only
        rw [List.head?_map, hh]
        rfl
      · dsimp only
        rw [List.getLast?_map, hl]
        rfl
  · intro x
    rfl
  · intro finOps h
    rw [qwpFinalOps] at h
    cases haux : fetchAux ops.limit resps ([] : List I) (none : Option K) with
    | none => rw [haux] at h; cases h
    | some o =>
      rw [haux] at h
      dsimp only [Option.map] at h
      rcases Option.some.inj h with rfl
      exact ⟨rfl, rfl, rfl, rfl⟩
  · intro o h
    exact fetchAux_sent ops.limit resps ([] : List I) (none : Option K) o h
  · exact getQueryCount_sent inp server

/-- Witness for C10 at a concrete two-page run: the caller's incoming
cursor is irrelevant, the final request state is the last issued request,
and `GetQueryCount` sends one request differing only in `Select`. -/
theorem request_mutation_frame_witness :
    (ScanAll (⟨some 7, ()⟩ : ScanInputGo Nat Unit)
        [(Except.ok ⟨[1], some 2, 0⟩ : Except Nat (DbOutput Nat Nat)), Except.ok ⟨[3], none, 0⟩] =
      ScanAll (⟨none, ()⟩ : ScanInputGo Nat Unit)
        [(Except.ok ⟨[1], some 2, 0⟩ : Except Nat (DbOutput Nat Nat)), Except.ok ⟨[3], none, 0⟩]) ∧
    (((⟨some 2, ()⟩ : ScanInputGo Nat Unit).other = ()) ∧
      ([(⟨none, ()⟩ : ScanInputGo Nat Unit), ⟨some 2, ()⟩].head? = some ⟨none, ()⟩) ∧
      ([(⟨none, ()⟩ : ScanInputGo Nat Unit), ⟨some 2, ()⟩].getLast? = some ⟨some 2, ()⟩)) ∧
    (GetQueryCount (⟨some 7, Select.unset, ()⟩ : QueryInputGo Nat Unit)
      (fun _ => Except.ok ⟨[], none, 0⟩ :
        QueryInputGo Nat Unit → Except Nat (DbOutput Nat Nat))).2 =
      [⟨some 7, Select.count, ()⟩] := by
  have h := request_mutation_frame (⟨none, ()⟩ : ScanInputGo Nat Unit)
    (⟨none, Select.unset, ()⟩ : QueryInputGo Nat Unit)
    (⟨⟨none, Select.unset, ()⟩, 0, 5⟩ : PaginationOps Nat Unit)
    (⟨some 7, Select.unset, ()⟩ : QueryInputGo Nat Unit)
    (fun _ => Except.ok ⟨[], none, 0⟩ :
      QueryInputGo Nat Unit → Except Nat (DbOutput Nat Nat))
    [(Except.ok ⟨[1], some 2, 0⟩ : Except Nat (DbOutput Nat Nat)), Except.ok ⟨[3], none, 0⟩]
  exact ⟨h.1 (some 7),
    h.2.1 (LoopRes.ok [1, 3], ⟨some 2, ()⟩, [⟨none, ()⟩, ⟨some 2, ()⟩]) rfl,
    h.2.2.2.2.2.2.2⟩

end Ddb
